import Mathlib

/-!
Shallow embedding of the cmd_pg_mongo migration pipeline (src/main.go).

The program copies every row of a set of PostgreSQL tables into MongoDB
collections of the same name.  The parts embedded here are the ones the
verified properties are about:

* `getAllPostgresTables` — table auto-discovery from the schema catalog;
* `fetchDataFromPostgresAndInsertToMongo` — the per-table transfer loop
  (query open, per-row `FieldDescriptions`, `Scan`, document build,
  `InsertOne`);
* the table loop of `main`, embedded as `processTables` (on a transfer
  error `main` calls `log.Fatalf`, which terminates the process; the
  embedding models this by stopping and setting an `aborted` flag);
* `resolveTables` — the `config.Postgres.AllTables` branch of `main`.

External collaborators are modelled as data: a `PgDB` maps a query string
to either a query-open error or the result set (`TableData`: column names,
a list of per-row outcomes, and an optional iteration error reported by
`rows.Err()` after normal loop exit).  MongoDB is modelled as an
append-only log of `(collection, document)` insertions; the destination's
per-insert accept/reject decision is a pure `WriteOracle`.  The embedded
functions also return a trace of the driver calls they make (query issued,
`FieldDescriptions` fetched, `InsertOne` attempted), so that call counts —
not just final states — are provable.
-/

/-- A raw column value as handed over by the driver
(`interface{}` in the Go source): a tagged union of the native kinds. -/
inductive RawValue where
  | null : RawValue
  | intVal : Int → RawValue
  | text : String → RawValue
  | boolVal : Bool → RawValue
  | timeVal : String → RawValue
  | bytes : List Nat → RawValue
  | other : String → RawValue
deriving DecidableEq

/-- A BSON document (`bson.D`): an ordered list of key/value pairs. -/
abbrev Document := List (String × RawValue)

/-- One iteration of the row stream: either a row whose values scan
successfully, or a row whose `rows.Scan` fails. -/
inductive RowEvent where
  | ok : List RawValue → RowEvent
  | scanError : String → RowEvent
deriving DecidableEq

/-- The result set behind an open cursor: the column names reported by
`rows.FieldDescriptions()`, the per-row outcomes the stream will yield,
and the error `rows.Err()` reports after the loop exits normally. -/
structure TableData where
  fields : List String
  events : List RowEvent
  iterError : Option String
deriving DecidableEq

/-- The PostgreSQL handle: maps a SQL text to a query-open error or a
result set. -/
structure PgDB where
  query : String → Except String TableData

/-- The MongoDB handle's per-insert decision: `none` accepts the document,
`some e` rejects it with error `e`. -/
abbrev WriteOracle := String → Document → Option String

/-- The MongoDB state: an append-only log of performed insertions,
`(collection name, document)`. -/
abbrev MongoState := List (String × Document)

/-- An observable driver call made by the transfer loop. -/
inductive Event where
  | queryIssued : String → Event
  | fieldDesc : List String → Event
  | insertCall : String → Document → Event
deriving DecidableEq

/-- Outcome of one table's transfer: the driver calls made, the documents
actually inserted, and the returned `error` (`Except.ok ()` for `nil`). -/
structure FetchResult where
  trace : List Event
  inserted : List (String × Document)
  result : Except String Unit

/-- Document construction of the Go loop
`for i, field := range fields { document = append(document, bson.E{Key: field.Name, Value: columnValues[i]}) }`.
`columnValues` has length `len(fields)` by construction in the source, so
the zip coincides with the Go indexing whenever `vals` has that length. -/
def buildDocument (fields : List String) (vals : List RawValue) : Document :=
  List.zip fields vals

/-- The `for rows.Next()` body of `fetchDataFromPostgresAndInsertToMongo`:
per iteration it fetches `rows.FieldDescriptions()`, scans the row
(returning the scan error if any), builds the document, and calls
`InsertOne` (returning the insert error if any).  After normal exhaustion
it checks `rows.Err()`. -/
def transferRows (wr : WriteOracle) (coll : String) (fields : List String) :
    List RowEvent → Option String → FetchResult
  | [], none => ⟨[], [], Except.ok ()⟩
  | [], some e => ⟨[], [], Except.error ("error iterating PostgreSQL rows: " ++ e)⟩
  | RowEvent.scanError m :: _, _ =>
      ⟨[Event.fieldDesc fields], [],
       Except.error ("error scanning PostgreSQL row: " ++ m)⟩
  | RowEvent.ok vals :: rest, ie =>
      let doc := buildDocument fields vals
      match wr coll doc with
      | some e =>
          ⟨[Event.fieldDesc fields, Event.insertCall coll doc], [],
           Except.error ("error inserting document into MongoDB: " ++ e)⟩
      | none =>
          let r := transferRows wr coll fields rest ie
          ⟨Event.fieldDesc fields :: Event.insertCall coll doc :: r.trace,
           (coll, doc) :: r.inserted, r.result⟩

/-- `fetchDataFromPostgresAndInsertToMongo` from src/main.go: issues
`fmt.Sprintf("SELECT * FROM %s", pgTableName)`, then runs the row loop.
`mongoDBName` selects the database; the insertion log is keyed by
collection name, which is what the program varies. -/
def fetchDataFromPostgresAndInsertToMongo (pg : PgDB) (wr : WriteOracle)
    (pgTableName mongoDBName mongoCollectionName : String) : FetchResult :=
  match pg.query ("SELECT * FROM " ++ pgTableName) with
  | Except.error e =>
      ⟨[Event.queryIssued ("SELECT * FROM " ++ pgTableName)], [],
       Except.error ("error querying PostgreSQL: " ++ e)⟩
  | Except.ok td =>
      let r := transferRows wr mongoCollectionName td.fields td.events td.iterError
      ⟨Event.queryIssued ("SELECT * FROM " ++ pgTableName) :: r.trace,
       r.inserted, r.result⟩

/-- Aggregate outcome of the table loop of `main`. -/
structure RunResult where
  outcomes : List (String × Except String Unit)
  log : List (String × Document)
  aborted : Bool

/-- The table loop of `main`: for each table, transfer it into the
collection of the same name; on error, `log.Fatalf` terminates the
process (modelled by stopping with `aborted := true`). -/
def processTables (pg : PgDB) (wr : WriteOracle) (mongoDBName : String) :
    List String → RunResult
  | [] => ⟨[], [], false⟩
  | t :: rest =>
      let r := fetchDataFromPostgresAndInsertToMongo pg wr t mongoDBName t
      match r.result with
      | Except.error e => ⟨[(t, Except.error e)], r.inserted, true⟩
      | Except.ok _ =>
          let rr := processTables pg wr mongoDBName rest
          ⟨(t, Except.ok ()) :: rr.outcomes, r.inserted ++ rr.log, rr.aborted⟩

/-- The catalog query text of `getAllPostgresTables` (whitespace
normalised; \x27 is the single-quote character of the SQL literals). -/
def catalogSQL : String :=
  "SELECT table_name FROM information_schema.tables WHERE table_schema = \x27public\x27 AND table_type = \x27BASE TABLE\x27"

/-- `rows.Scan(&tableName)` of `getAllPostgresTables`: the row must carry
exactly one text value. -/
def scanTableName : List RawValue → Except String String
  | [RawValue.text s] => Except.ok s
  | _ => Except.error "error scanning table name"

/-- The scan loop of `getAllPostgresTables`: collect one name per row,
fail on a scan error, and check `rows.Err()` after exhaustion. -/
def collectTableNames : List RowEvent → Option String → Except String (List String)
  | [], none => Except.ok []
  | [], some e => Except.error ("error iterating table names: " ++ e)
  | RowEvent.scanError m :: _, _ =>
      Except.error ("error scanning table name: " ++ m)
  | RowEvent.ok vals :: rest, ie =>
      match scanTableName vals with
      | Except.error e => Except.error e
      | Except.ok s =>
          match collectTableNames rest ie with
          | Except.error e => Except.error e
          | Except.ok ss => Except.ok (s :: ss)

/-- `getAllPostgresTables` from src/main.go: query the schema catalog for
base tables and scan each returned name. -/
def getAllPostgresTables (pg : PgDB) : Except String (List String) :=
  match pg.query catalogSQL with
  | Except.error e =>
      Except.error ("error querying PostgreSQL for table names: " ++ e)
  | Except.ok td => collectTableNames td.events td.iterError

/-- The table-related part of the Postgres configuration. -/
structure PgConfig where
  tables : List String
  allTables : Bool

/-- The `config.Postgres.AllTables` branch of `main`: when set, the
discovered catalog list replaces `config.Postgres.Tables`; otherwise the
configured list is used verbatim. -/
def resolveTables (cfg : PgConfig) (pg : PgDB) : Except String (List String) :=
  if cfg.allTables then getAllPostgresTables pg else Except.ok cfg.tables

/-- Number of `InsertOne` calls recorded in a trace. -/
def countInserts (tr : List Event) : Nat :=
  (tr.filter fun e =>
    match e with
    | Event.insertCall _ _ => true
    | _ => false).length

/-- The field lists fetched by `rows.FieldDescriptions()` calls, in call
order. -/
def fieldDescLists (tr : List Event) : List (List String) :=
  tr.filterMap fun e =>
    match e with
    | Event.fieldDesc f => some f
    | _ => none

/-- The SQL texts of the queries issued, in call order. -/
def queryStrings (tr : List Event) : List String :=
  tr.filterMap fun e =>
    match e with
    | Event.queryIssued s => some s
    | _ => none

/-- Number of documents a MongoDB log holds in collection `c`. -/
def countColl (c : String) (log : List (String × Document)) : Nat :=
  (log.filter fun e => e.1 == c).length

/-- One whole pipeline run applied to a destination state: the insertions
of the run are appended to the existing contents. -/
def applyRun (pg : PgDB) (wr : WriteOracle) (mongoDBName : String)
    (ts : List String) (st : MongoState) : MongoState :=
  st ++ (processTables pg wr mongoDBName ts).log

/-- Failure of the iteration that handles one row: either its scan fails,
or its document is rejected by the destination. -/
def rowFails (wr : WriteOracle) (c : String) (fields : List String) :
    RowEvent → Prop
  | RowEvent.scanError _ => True
  | RowEvent.ok vals => ∃ e, wr c (buildDocument fields vals) = some e

/-! ### Concrete fixtures (used by witnesses and counterexamples) -/

/-- A destination that accepts every document. -/
def wrAccept : WriteOracle := fun _ _ => none

/-- A destination that rejects exactly the document `{id: 2}`. -/
def wrRejectSecond : WriteOracle :=
  fun _ d => if d = [("id", RawValue.intVal 2)] then some "duplicate key" else none

/-- A one-row result set. -/
def tdOneRow : TableData := ⟨["id"], [RowEvent.ok [RawValue.intVal 1]], none⟩

/-- A two-row result set. -/
def tdTwoRows : TableData :=
  ⟨["id"],
   [RowEvent.ok [RawValue.intVal 1], RowEvent.ok [RawValue.intVal 2]], none⟩

/-- A result set whose first row fails to scan. -/
def tdScanFail : TableData :=
  ⟨["id"], [RowEvent.scanError "decode failure"], none⟩

/-- An empty result set. -/
def tdEmpty : TableData := ⟨["id", "name"], [], none⟩

/-- A catalog result set reporting the base tables `orders` and `users`. -/
def tdCatalog : TableData :=
  ⟨["table_name"],
   [RowEvent.ok [RawValue.text "orders"], RowEvent.ok [RawValue.text "users"]],
   none⟩

/-- A source with tables `a` (one row), `b` (scan failure), `c` (one row),
`t` (two rows) and `empty` (no rows); its catalog reports `orders` and
`users`. -/
def pgFixture : PgDB :=
  ⟨fun s =>
    if s = "SELECT * FROM a" then Except.ok tdOneRow
    else if s = "SELECT * FROM b" then Except.ok tdScanFail
    else if s = "SELECT * FROM c" then Except.ok tdOneRow
    else if s = "SELECT * FROM t" then Except.ok tdTwoRows
    else if s = "SELECT * FROM empty" then Except.ok tdEmpty
    else if s = catalogSQL then Except.ok tdCatalog
    else Except.error "relation does not exist"⟩

/-! ### Helper lemmas -/

/-- Running the row loop on a block of scannable rows whose inserts are
all accepted processes them in order and then continues with the rest of
the stream. -/
theorem transferRows_okBlock (wr : WriteOracle) (coll : String)
    (fields : List String) (pref : List (List RawValue))
    (evs : List RowEvent) (ie : Option String)
    (h : ∀ v ∈ pref, wr coll (buildDocument fields v) = none) :
    transferRows wr coll fields (pref.map RowEvent.ok ++ evs) ie =
      ⟨(pref.map fun v =>
          [Event.fieldDesc fields,
           Event.insertCall coll (buildDocument fields v)]).flatten ++
         (transferRows wr coll fields evs ie).trace,
       (pref.map fun v => (coll, buildDocument fields v)) ++
         (transferRows wr coll fields evs ie).inserted,
       (transferRows wr coll fields evs ie).result⟩ := by
  induction pref with
  | nil => simp
  | cons v vs ih =>
      have hv : wr coll (buildDocument fields v) = none :=
        h v (List.mem_cons_self v vs)
      have hvs : ∀ u ∈ vs, wr coll (buildDocument fields u) = none :=
        fun u hu => h u (List.mem_cons_of_mem v hu)
      simp [transferRows, hv, ih hvs]

/-- `countInserts` distributes over concatenation of traces. -/
theorem countInserts_append (a b : List Event) :
    countInserts (a ++ b) = countInserts a + countInserts b := by
  simp [countInserts, List.filter_append]

/-- Each processed row contributes exactly one `InsertOne` call to the
trace of a fully accepted block. -/
theorem countInserts_okBlock (coll : String) (fields : List String)
    (pref : List (List RawValue)) :
    countInserts ((pref.map fun v =>
        [Event.fieldDesc fields,
         Event.insertCall coll (buildDocument fields v)]).flatten) =
      pref.length := by
  induction pref with
  | nil => simp [countInserts]
  | cons v vs ih => simp [countInserts, List.filter] at ih ⊢; omega

/-- Each processed row contributes exactly one `FieldDescriptions` fetch
to the trace of a fully accepted block. -/
theorem fieldDescLists_okBlock (coll : String) (fields : List String)
    (pref : List (List RawValue)) :
    fieldDescLists ((pref.map fun v =>
        [Event.fieldDesc fields,
         Event.insertCall coll (buildDocument fields v)]).flatten) =
      List.replicate pref.length fields := by
  induction pref with
  | nil => simp [fieldDescLists]
  | cons v vs ih => simp [fieldDescLists] at ih ⊢; simpa [List.replicate] using ih

/-- `fieldDescLists` distributes over concatenation of traces. -/
theorem fieldDescLists_append (a b : List Event) :
    fieldDescLists (a ++ b) = fieldDescLists a ++ fieldDescLists b := by
  simp [fieldDescLists]

/-- The row loop issues no SQL queries of its own. -/
theorem queryStrings_transferRows (wr : WriteOracle) (coll : String)
    (fields : List String) (evs : List RowEvent) (ie : Option String) :
    queryStrings (transferRows wr coll fields evs ie).trace = [] := by
  induction evs with
  | nil => cases ie <;> simp [transferRows, queryStrings]
  | cons ev rest ih =>
      cases ev with
      | scanError m => simp [transferRows, queryStrings]
      | ok vals =>
          cases hw : wr coll (buildDocument fields vals) with
          | some e => simp [transferRows, hw, queryStrings]
          | none => simp [transferRows, hw, queryStrings] at ih ⊢; exact ih

/-- Every insertion the row loop performs targets the collection it was
given. -/
theorem transferRows_inserted_coll (wr : WriteOracle) (coll : String)
    (fields : List String) (evs : List RowEvent) (ie : Option String) :
    ((transferRows wr coll fields evs ie).inserted.all
      fun p => p.1 == coll) = true := by
  induction evs with
  | nil => cases ie <;> simp [transferRows]
  | cons ev rest ih =>
      cases ev with
      | scanError m => simp [transferRows]
      | ok vals =>
          cases hw : wr coll (buildDocument fields vals) with
          | some e => simp [transferRows, hw]
          | none => simp [transferRows, hw] at ih ⊢; exact ih

/-- `countColl` distributes over concatenation of insertion logs. -/
theorem countColl_append (c : String) (a b : List (String × Document)) :
    countColl c (a ++ b) = countColl c a + countColl c b := by
  simp [countColl, List.filter_append]

/-! ### Claim theorems -/

/-- Claim C2 (P1, column fidelity): for a row with as many values as the
result set has columns, the built document has exactly one entry per
column, its keys are the column names in original positional order, and
its values are the raw values in original positional order. -/
theorem buildDocument_column_fidelity (fields : List String)
    (vals : List RawValue) (h : vals.length = fields.length) :
    (buildDocument fields vals).length = fields.length ∧
    (buildDocument fields vals).map Prod.fst = fields ∧
    (buildDocument fields vals).map Prod.snd = vals := by
  refine ⟨?_, ?_, ?_⟩
  · simp [buildDocument, h]
  · exact List.map_fst_zip fields vals (le_of_eq h.symm)
  · exact List.map_snd_zip fields vals (le_of_eq h)

/-- Witness for C2 at the row `(id=1, name='Ana')`. -/
theorem buildDocument_column_fidelity_witness :
    ([RawValue.intVal 1, RawValue.text "Ana"].length =
      (["id", "name"] : List String).length) ∧
    ((buildDocument ["id", "name"] [RawValue.intVal 1, RawValue.text "Ana"]).length =
        (["id", "name"] : List String).length ∧
      (buildDocument ["id", "name"] [RawValue.intVal 1, RawValue.text "Ana"]).map
          Prod.fst = ["id", "name"] ∧
      (buildDocument ["id", "name"] [RawValue.intVal 1, RawValue.text "Ana"]).map
          Prod.snd = [RawValue.intVal 1, RawValue.text "Ana"]) :=
  ⟨by decide, buildDocument_column_fidelity _ _ (by decide)⟩

/-- Claim C3 (P2, null preservation): when column `i` is named `k` and the
row's value `i` is null, the built document carries, at position `i`, the
entry `(k, null)` — the key `k` is present among the document's keys and
the value is the explicit null, which is distinct from the empty string. -/
theorem buildDocument_null_preserved (fields : List String)
    (vals : List RawValue) (i : Nat) (k : String)
    (hk : fields.get? i = some k)
    (hnull : vals.get? i = some RawValue.null) :
    (buildDocument fields vals).get? i = some (k, RawValue.null) ∧
    k ∈ (buildDocument fields vals).map Prod.fst ∧
    (k, RawValue.null) ∈ buildDocument fields vals ∧
    RawValue.null ≠ RawValue.text "" := by
  have hz : (buildDocument fields vals).get? i = some (k, RawValue.null) := by
    rw [buildDocument, List.get?_zip_eq_some]
    exact ⟨hk, hnull⟩
  have hmem : (k, RawValue.null) ∈ buildDocument fields vals :=
    List.get?_mem hz
  exact ⟨hz, List.mem_map_of_mem Prod.fst hmem, hmem, by decide⟩

/-- Witness for C3 at the row `(id=2, deleted_at=NULL)`. -/
theorem buildDocument_null_preserved_witness :
    ((["id", "deleted_at"] : List String).get? 1 = some "deleted_at") ∧
    ([RawValue.intVal 2, RawValue.null].get? 1 = some RawValue.null) ∧
    ((buildDocument ["id", "deleted_at"] [RawValue.intVal 2, RawValue.null]).get? 1 =
        some ("deleted_at", RawValue.null) ∧
      "deleted_at" ∈
        (buildDocument ["id", "deleted_at"] [RawValue.intVal 2, RawValue.null]).map
          Prod.fst ∧
      ("deleted_at", RawValue.null) ∈
        buildDocument ["id", "deleted_at"] [RawValue.intVal 2, RawValue.null] ∧
      RawValue.null ≠ RawValue.text "") :=
  ⟨by decide, by decide,
    buildDocument_null_preserved ["id", "deleted_at"]
      [RawValue.intVal 2, RawValue.null] 1 "deleted_at" (by decide) (by decide)⟩

/-- Claim C10 (empty table): a table whose stream yields zero rows and no
iteration error transfers successfully, with no document inserted and no
`InsertOne` call made. -/
theorem empty_table_transfer_success (pg : PgDB) (wr : WriteOracle)
    (t db c : String) (fs : List String)
    (hq : pg.query ("SELECT * FROM " ++ t) = Except.ok ⟨fs, [], none⟩) :
    (fetchDataFromPostgresAndInsertToMongo pg wr t db c).result = Except.ok () ∧
    (fetchDataFromPostgresAndInsertToMongo pg wr t db c).inserted = [] ∧
    countInserts (fetchDataFromPostgresAndInsertToMongo pg wr t db c).trace = 0 := by
  simp [fetchDataFromPostgresAndInsertToMongo, hq, transferRows, countInserts]

/-- Witness for C10 at the empty table `empty`. -/
theorem empty_table_transfer_success_witness :
    (pgFixture.query ("SELECT * FROM " ++ "empty") =
      Except.ok ⟨["id", "name"], [], none⟩) ∧
    ((fetchDataFromPostgresAndInsertToMongo pgFixture wrAccept "empty" "db"
        "empty").result = Except.ok () ∧
      (fetchDataFromPostgresAndInsertToMongo pgFixture wrAccept "empty" "db"
        "empty").inserted = [] ∧
      countInserts (fetchDataFromPostgresAndInsertToMongo pgFixture wrAccept
        "empty" "db" "empty").trace = 0) :=
  ⟨rfl,
    empty_table_transfer_success pgFixture wrAccept "empty" "db" "empty"
      ["id", "name"] rfl⟩

/-- Claim C8 (verbatim query interpolation): for every table name `t`, the
single SQL text issued when opening its stream is the plain concatenation
of the prefix string with `t` itself — no quoting, escaping, or
validation. -/
theorem query_text_is_verbatim_concat (pg : PgDB) (wr : WriteOracle)
    (t db c : String) :
    queryStrings (fetchDataFromPostgresAndInsertToMongo pg wr t db c).trace =
      ["SELECT * FROM " ++ t] := by
  cases hq : pg.query ("SELECT * FROM " ++ t) with
  | error e => simp [fetchDataFromPostgresAndInsertToMongo, hq, queryStrings]
  | ok td =>
      have h2 := queryStrings_transferRows wr c td.fields td.events td.iterError
      simp only [queryStrings] at h2 ⊢
      simp [fetchDataFromPostgresAndInsertToMongo, hq, h2]

/-- The opening query event is not an `InsertOne` call. -/
theorem countInserts_cons_query (s : String) (tr : List Event) :
    countInserts (Event.queryIssued s :: tr) = countInserts tr := by
  simp only [countInserts, List.filter]

/-- The opening query event is not a `FieldDescriptions` fetch. -/
theorem fieldDescLists_cons_query (s : String) (tr : List Event) :
    fieldDescLists (Event.queryIssued s :: tr) = fieldDescLists tr := by
  simp only [fieldDescLists, List.filterMap]

/-- Claim C4 (P3, row-count conservation): for a table whose stream yields
`R` scannable rows, no iteration error, and whose documents are all
accepted, `InsertOne` is called exactly `R` times, exactly `R` documents
are transferred, and the table's outcome is success. -/
theorem transfer_rowcount_conservation (pg : PgDB) (wr : WriteOracle)
    (t db c : String) (td : TableData) (rows : List (List RawValue))
    (hq : pg.query ("SELECT * FROM " ++ t) = Except.ok td)
    (hev : td.events = rows.map RowEvent.ok)
    (hie : td.iterError = none)
    (hwr : ∀ v ∈ rows, wr c (buildDocument td.fields v) = none) :
    countInserts (fetchDataFromPostgresAndInsertToMongo pg wr t db c).trace =
      rows.length ∧
    (fetchDataFromPostgresAndInsertToMongo pg wr t db c).inserted.length =
      rows.length ∧
    (fetchDataFromPostgresAndInsertToMongo pg wr t db c).result =
      Except.ok () := by
  have key := transferRows_okBlock wr c td.fields rows [] td.iterError hwr
  rw [List.append_nil, hie] at key
  have key2 : transferRows wr c td.fields (rows.map RowEvent.ok) none =
      ⟨(rows.map fun v => [Event.fieldDesc td.fields,
          Event.insertCall c (buildDocument td.fields v)]).flatten,
        rows.map fun v => (c, buildDocument td.fields v), Except.ok ()⟩ := by
    rw [key]; simp [transferRows]
  have hins : countInserts ((rows.map fun v =>
      [Event.fieldDesc td.fields,
       Event.insertCall c (buildDocument td.fields v)]).flatten) = rows.length :=
    countInserts_okBlock c td.fields rows
  refine ⟨?_, ?_, ?_⟩ <;>
    simp only [fetchDataFromPostgresAndInsertToMongo, hq, hev, hie, key2]
  · rw [countInserts_cons_query]; exact hins
  · simp

/-- Witness for C4 at the two-row table `t`. -/
theorem transfer_rowcount_conservation_witness :
    (pgFixture.query ("SELECT * FROM " ++ "t") = Except.ok tdTwoRows) ∧
    (tdTwoRows.events =
      ([[RawValue.intVal 1], [RawValue.intVal 2]].map RowEvent.ok)) ∧
    (tdTwoRows.iterError = none) ∧
    (∀ v ∈ [[RawValue.intVal 1], [RawValue.intVal 2]],
      wrAccept "t" (buildDocument tdTwoRows.fields v) = none) ∧
    (countInserts (fetchDataFromPostgresAndInsertToMongo pgFixture wrAccept
        "t" "db" "t").trace = 2 ∧
      (fetchDataFromPostgresAndInsertToMongo pgFixture wrAccept
        "t" "db" "t").inserted.length = 2 ∧
      (fetchDataFromPostgresAndInsertToMongo pgFixture wrAccept
        "t" "db" "t").result = Except.ok ()) := by
  refine ⟨rfl, rfl, rfl, fun v _ => rfl, ?_⟩
  have h := transfer_rowcount_conservation pgFixture wrAccept "t" "db" "t"
    tdTwoRows [[RawValue.intVal 1], [RawValue.intVal 2]] rfl rfl rfl
    (fun v _ => rfl)
  simpa using h

/-- Claim C6 as amended: the column descriptors are fetched anew on every
row iteration — on an all-accepted `R`-row stream, `FieldDescriptions` is
consulted exactly `R` times — and every fetch returns the same field list,
so each row of a stream is built against the same column schema. -/
theorem fieldDesc_fetched_once_per_row (pg : PgDB) (wr : WriteOracle)
    (t db c : String) (td : TableData) (rows : List (List RawValue))
    (hq : pg.query ("SELECT * FROM " ++ t) = Except.ok td)
    (hev : td.events = rows.map RowEvent.ok)
    (hie : td.iterError = none)
    (hwr : ∀ v ∈ rows, wr c (buildDocument td.fields v) = none) :
    fieldDescLists (fetchDataFromPostgresAndInsertToMongo pg wr t db c).trace =
      List.replicate rows.length td.fields := by
  have key := transferRows_okBlock wr c td.fields rows [] td.iterError hwr
  rw [List.append_nil, hie] at key
  have key2 : transferRows wr c td.fields (rows.map RowEvent.ok) none =
      ⟨(rows.map fun v => [Event.fieldDesc td.fields,
          Event.insertCall c (buildDocument td.fields v)]).flatten,
        rows.map fun v => (c, buildDocument td.fields v), Except.ok ()⟩ := by
    rw [key]; simp [transferRows]
  have hfd := fieldDescLists_okBlock c td.fields rows
  simp only [fetchDataFromPostgresAndInsertToMongo, hq, hev, hie, key2]
  rw [fieldDescLists_cons_query]
  exact hfd

/-- Witness for the amended C6 at the two-row table `t`. -/
theorem fieldDesc_fetched_once_per_row_witness :
    (pgFixture.query ("SELECT * FROM " ++ "t") = Except.ok tdTwoRows) ∧
    (tdTwoRows.events =
      ([[RawValue.intVal 1], [RawValue.intVal 2]].map RowEvent.ok)) ∧
    (tdTwoRows.iterError = none) ∧
    (∀ v ∈ [[RawValue.intVal 1], [RawValue.intVal 2]],
      wrAccept "t" (buildDocument tdTwoRows.fields v) = none) ∧
    fieldDescLists (fetchDataFromPostgresAndInsertToMongo pgFixture wrAccept
        "t" "db" "t").trace = List.replicate 2 ["id"] := by
  refine ⟨rfl, rfl, rfl, fun v _ => rfl, ?_⟩
  have h := fieldDesc_fetched_once_per_row pgFixture wrAccept "t" "db" "t"
    tdTwoRows [[RawValue.intVal 1], [RawValue.intVal 2]] rfl rfl rfl
    (fun v _ => rfl)
  simpa using h

/-- Counterexample to C6 as stated: on the two-row stream of table `t`,
the column descriptors are fetched twice — once per row — not once per
stream. -/
theorem fieldDesc_once_per_stream_cex :
    (fieldDescLists (fetchDataFromPostgresAndInsertToMongo pgFixture wrAccept
        "t" "db" "t").trace).length = 2 ∧
    (fieldDescLists (fetchDataFromPostgresAndInsertToMongo pgFixture wrAccept
        "t" "db" "t").trace).length ≠ 1 := by
  exact ⟨rfl, by decide⟩

/-- Claim C5 (P5, auto-discovery supersedes explicit list): with the
all-tables flag set, the resolved table set is the catalog's reported
base-table set, whatever explicit table list the configuration carries. -/
theorem resolveTables_auto_supersedes (tabs tabs' : List String)
    (pg : PgDB) (L : List String)
    (h : getAllPostgresTables pg = Except.ok L) :
    resolveTables ⟨tabs, true⟩ pg = Except.ok L ∧
    resolveTables ⟨tabs, true⟩ pg = resolveTables ⟨tabs', true⟩ pg := by
  constructor <;> simp [resolveTables, h]

/-- Witness for C5: the catalog reports `orders` and `users`; the explicit
configured list `ignored_table` is superseded. -/
theorem resolveTables_auto_supersedes_witness :
    (getAllPostgresTables pgFixture = Except.ok ["orders", "users"]) ∧
    (resolveTables ⟨["ignored_table"], true⟩ pgFixture =
        Except.ok ["orders", "users"] ∧
      resolveTables ⟨["ignored_table"], true⟩ pgFixture =
        resolveTables ⟨[], true⟩ pgFixture) :=
  ⟨rfl, resolveTables_auto_supersedes ["ignored_table"] [] pgFixture
    ["orders", "users"] rfl⟩

/-- Every document a table transfer inserts goes to the collection the
transfer was given. -/
theorem fetch_inserted_coll (pg : PgDB) (wr : WriteOracle)
    (t db c : String) :
    ((fetchDataFromPostgresAndInsertToMongo pg wr t db c).inserted.all
      fun p => p.1 == c) = true := by
  cases hq : pg.query ("SELECT * FROM " ++ t) with
  | error e => simp [fetchDataFromPostgresAndInsertToMongo, hq]
  | ok td =>
      simp only [fetchDataFromPostgresAndInsertToMongo, hq]
      exact transferRows_inserted_coll wr c td.fields td.events td.iterError

/-- Every insertion performed by the table loop targets a collection named
after one of the processed tables. -/
theorem processTables_log_colls (pg : PgDB) (wr : WriteOracle)
    (db : String) (ts : List String) :
    ((processTables pg wr db ts).log.all fun p => ts.contains p.1) = true := by
  induction ts with
  | nil => simp [processTables]
  | cons t rest ih =>
      have hall := fetch_inserted_coll pg wr t db t
      simp only [List.all_eq_true] at hall ih ⊢
      intro p hp
      simp only [processTables] at hp
      cases hres : (fetchDataFromPostgresAndInsertToMongo pg wr t db t).result with
      | error e =>
          rw [hres] at hp
          simp only [] at hp
          have := hall p hp
          simp only [List.contains_cons]
          simp_all
      | ok u =>
          rw [hres] at hp
          simp only [List.mem_append] at hp
          rcases hp with hp | hp
          · have := hall p hp
            simp only [List.contains_cons]
            simp_all
          · have := ih p hp
            simp only [List.contains_cons]
            simp_all

/-- Claim C7 (P6, no dedup / no upsert): each insert lands in the
collection named after its source table, and a second identical pipeline
run appends the same insertions again, so every collection holds twice the
entry count of a single run from empty. -/
theorem rerun_doubles_collections (pg : PgDB) (wr : WriteOracle)
    (db : String) (ts : List String) (c : String) :
    countColl c (applyRun pg wr db ts (applyRun pg wr db ts [])) =
      2 * countColl c (applyRun pg wr db ts []) ∧
    ((processTables pg wr db ts).log.all fun p => ts.contains p.1) = true := by
  refine ⟨?_, processTables_log_colls pg wr db ts⟩
  simp [applyRun, countColl_append]
  omega

/-- Claim C9 (no rollback of partial transfers): when the stream of table
`t` delivers `k` fully processed rows and then a row whose scan fails or
whose document the destination rejects, the transfer ends in error, yet
the `k` documents already inserted are exactly what the table contributed
to the destination — the run keeps them, nothing is rolled back. -/
theorem failed_transfer_keeps_prior_inserts (pg : PgDB) (wr : WriteOracle)
    (t db : String) (td : TableData) (pref : List (List RawValue))
    (bad : RowEvent) (rest : List RowEvent)
    (hq : pg.query ("SELECT * FROM " ++ t) = Except.ok td)
    (hev : td.events = pref.map RowEvent.ok ++ bad :: rest)
    (hpref : ∀ v ∈ pref, wr t (buildDocument td.fields v) = none)
    (hbad : rowFails wr t td.fields bad) :
    (fetchDataFromPostgresAndInsertToMongo pg wr t db t).inserted =
      pref.map (fun v => (t, buildDocument td.fields v)) ∧
    (∃ e, (fetchDataFromPostgresAndInsertToMongo pg wr t db t).result =
      Except.error e) ∧
    (processTables pg wr db [t]).log =
      pref.map (fun v => (t, buildDocument td.fields v)) := by
  have key := transferRows_okBlock wr t td.fields pref (bad :: rest)
    td.iterError hpref
  have hbadres :
      (transferRows wr t td.fields (bad :: rest) td.iterError).inserted = [] ∧
      ∃ e, (transferRows wr t td.fields (bad :: rest) td.iterError).result =
        Except.error e := by
    cases bad with
    | scanError m => simp [transferRows]
    | ok vals =>
        obtain ⟨e, he⟩ := hbad
        simp [transferRows, he]
  obtain ⟨hbi, e, hbr⟩ := hbadres
  have hins : (fetchDataFromPostgresAndInsertToMongo pg wr t db t).inserted =
      pref.map (fun v => (t, buildDocument td.fields v)) := by
    simp only [fetchDataFromPostgresAndInsertToMongo, hq, hev, key]
    simp [hbi]
  have hres : (fetchDataFromPostgresAndInsertToMongo pg wr t db t).result =
      Except.error e := by
    simp only [fetchDataFromPostgresAndInsertToMongo, hq, hev, key]
    simp [hbr]
  refine ⟨hins, ⟨e, hres⟩, ?_⟩
  simp only [processTables, hres]
  exact hins

/-- Witness for C9: table `t` inserts `{id: 1}`, then the destination
rejects `{id: 2}`; the first document remains. -/
theorem failed_transfer_keeps_prior_inserts_witness :
    (pgFixture.query ("SELECT * FROM " ++ "t") = Except.ok tdTwoRows) ∧
    (tdTwoRows.events =
      [[RawValue.intVal 1]].map RowEvent.ok ++
        RowEvent.ok [RawValue.intVal 2] :: []) ∧
    (∀ v ∈ [[RawValue.intVal 1]],
      wrRejectSecond "t" (buildDocument tdTwoRows.fields v) = none) ∧
    rowFails wrRejectSecond "t" tdTwoRows.fields
      (RowEvent.ok [RawValue.intVal 2]) ∧
    ((fetchDataFromPostgresAndInsertToMongo pgFixture wrRejectSecond
        "t" "db" "t").inserted =
      [[RawValue.intVal 1]].map
        (fun v => ("t", buildDocument tdTwoRows.fields v)) ∧
      (∃ e, (fetchDataFromPostgresAndInsertToMongo pgFixture wrRejectSecond
        "t" "db" "t").result = Except.error e) ∧
      (processTables pgFixture wrRejectSecond "db" ["t"]).log =
        [[RawValue.intVal 1]].map
          (fun v => ("t", buildDocument tdTwoRows.fields v))) :=
  ⟨rfl, rfl, by decide, ⟨"duplicate key", by decide⟩,
    failed_transfer_keeps_prior_inserts pgFixture wrRejectSecond "t" "db"
      tdTwoRows [[RawValue.intVal 1]] (RowEvent.ok [RawValue.intVal 2]) []
      rfl rfl (by decide) ⟨"duplicate key", by decide⟩⟩

/-- Claim C1 as amended: a table failure is fatal to the whole run, not
just the table — `main` aborts at the first failed table.  Tables before
the failure keep their own independent outcomes and their inserted
documents; the failing table's error is recorded; tables after it are
never processed. -/
theorem run_stops_at_first_failed_table (pg : PgDB) (wr : WriteOracle)
    (db : String) (pre : List String) (b : String) (post : List String)
    (hpre : ∀ u ∈ pre,
      (fetchDataFromPostgresAndInsertToMongo pg wr u db u).result =
        Except.ok ())
    (hb : ∃ e, (fetchDataFromPostgresAndInsertToMongo pg wr b db b).result =
      Except.error e) :
    (processTables pg wr db (pre ++ b :: post)).outcomes =
      pre.map (fun u => (u, Except.ok ())) ++
        [(b, (fetchDataFromPostgresAndInsertToMongo pg wr b db b).result)] ∧
    (processTables pg wr db (pre ++ b :: post)).log =
      (pre.map fun u =>
        (fetchDataFromPostgresAndInsertToMongo pg wr u db u).inserted).flatten
        ++ (fetchDataFromPostgresAndInsertToMongo pg wr b db b).inserted ∧
    (processTables pg wr db (pre ++ b :: post)).aborted = true := by
  induction pre with
  | nil =>
      obtain ⟨e, he⟩ := hb
      simp [processTables, he]
  | cons u us ih =>
      have hu := hpre u (List.mem_cons_self u us)
      have hus : ∀ w ∈ us,
          (fetchDataFromPostgresAndInsertToMongo pg wr w db w).result =
            Except.ok () :=
        fun w hw => hpre w (List.mem_cons_of_mem u hw)
      obtain ⟨h1, h2, h3⟩ := ih hus
      refine ⟨?_, ?_, ?_⟩ <;>
        simp only [List.cons_append, processTables, hu,
          List.map_cons, List.flatten_cons, List.append_assoc] <;>
        simp [h1, h2, h3]

/-- Witness for the amended C1: `a` succeeds, `b` fails its scan, `c` is
never processed. -/
theorem run_stops_at_first_failed_table_witness :
    (∀ u ∈ ["a"],
      (fetchDataFromPostgresAndInsertToMongo pgFixture wrAccept u "db"
        u).result = Except.ok ()) ∧
    (∃ e, (fetchDataFromPostgresAndInsertToMongo pgFixture wrAccept "b" "db"
      "b").result = Except.error e) ∧
    ((processTables pgFixture wrAccept "db" (["a"] ++ "b" :: ["c"])).outcomes =
        ["a"].map (fun u => (u, Except.ok ())) ++
          [("b", (fetchDataFromPostgresAndInsertToMongo pgFixture wrAccept "b"
            "db" "b").result)] ∧
      (processTables pgFixture wrAccept "db" (["a"] ++ "b" :: ["c"])).log =
        (["a"].map fun u =>
          (fetchDataFromPostgresAndInsertToMongo pgFixture wrAccept u "db"
            u).inserted).flatten ++
          (fetchDataFromPostgresAndInsertToMongo pgFixture wrAccept "b" "db"
            "b").inserted ∧
      (processTables pgFixture wrAccept "db"
        (["a"] ++ "b" :: ["c"])).aborted = true) := by
  have hpre : ∀ u ∈ ["a"],
      (fetchDataFromPostgresAndInsertToMongo pgFixture wrAccept u "db"
        u).result = Except.ok () := by
    intro u hu
    rw [List.mem_singleton] at hu
    subst hu
    rfl
  have hb : ∃ e, (fetchDataFromPostgresAndInsertToMongo pgFixture wrAccept "b"
      "db" "b").result = Except.error e :=
    ⟨"error scanning PostgreSQL row: decode failure", rfl⟩
  exact ⟨hpre, hb,
    run_stops_at_first_failed_table pgFixture wrAccept "db" ["a"] "b" ["c"]
      hpre hb⟩

/-- Counterexample to C1 as stated: with tables `a`, `b`, `c` where `b`
fails mid-stream, the run aborts at `b` — `c` exists and has a row, but is
never attempted and its collection receives nothing; only `a`'s document
was transferred. -/
theorem table_failure_aborts_whole_run_cex :
    (processTables pgFixture wrAccept "db" ["a", "b", "c"]).outcomes.map
      Prod.fst = ["a", "b"] ∧
    (processTables pgFixture wrAccept "db" ["a", "b", "c"]).aborted = true ∧
    pgFixture.query ("SELECT * FROM " ++ "c") = Except.ok tdOneRow ∧
    countColl "c" (processTables pgFixture wrAccept "db" ["a", "b", "c"]).log
      = 0 ∧
    (processTables pgFixture wrAccept "db" ["a", "b", "c"]).log =
      [("a", [("id", RawValue.intVal 1)])] :=
  ⟨rfl, rfl, rfl, rfl, rfl⟩
